import Mathlib

/-!
Verification of the `slice2d` crate: two-dimensional views (`Slice2D`,
`Slice2DMut`) over a flat buffer, with checked row lookup, trusted indexed
access, destructive row iteration, and explicit / validated constructors.

Buffers are modelled as `List α`; `usize` indices as `Nat` (a separate
wrapped variant with explicit `% 2^w` models fixed-width overflow where it
matters). Rust's `slice.get(range)` and the panicking `slice[range]` are
modelled by `Option`-returning functions, `none` standing for absence
respectively for the panic.
-/

/-- Model of Rust `slice.get(a..b)`: `Some` of the subslice exactly when
`a <= b && b <= slice.len()`, else `None`. -/
def getRange? (l : List α) (a b : Nat) : Option (List α) :=
  if a ≤ b ∧ b ≤ l.length then some ((l.drop a).take (b - a)) else none

/-- Model of Rust `slice.get(a..)`: `Some` of the tail exactly when
`a <= slice.len()`, else `None`. -/
def getFrom? (l : List α) (a : Nat) : Option (List α) :=
  if a ≤ l.length then some (l.drop a) else none

/-- `struct Slice2D<'t, T> { stride: usize, len: usize, slice: &'t [T] }` -/
@[ext]
structure Slice2D (α : Type) where
  stride : Nat
  len : Nat
  slice : List α
deriving DecidableEq, Repr

/-- `struct Slice2DMut<'t, T> { stride: usize, len: usize, slice: &'t mut [T] }` -/
structure Slice2DMut (α : Type) where
  stride : Nat
  len : Nat
  slice : List α
deriving DecidableEq, Repr

/-- `Slice2D::get`: `let origin = index * self.stride;
self.slice.get(origin..origin + self.len)`. -/
def Slice2D.get (s : Slice2D α) (index : Nat) : Option (List α) :=
  let origin := index * s.stride
  getRange? s.slice origin (origin + s.len)

/-- `Index<usize> for Slice2D`: `&self.slice[origin..origin + self.len]`;
`none` models the panic (fatal bounds failure). -/
def Slice2D.index (s : Slice2D α) (index : Nat) : Option (List α) :=
  let origin := index * s.stride
  getRange? s.slice origin (origin + s.len)

/-- `Slice2DMut::get`: same computation as `Slice2D::get`. -/
def Slice2DMut.get (s : Slice2DMut α) (index : Nat) : Option (List α) :=
  let origin := index * s.stride
  getRange? s.slice origin (origin + s.len)

/-- `Slice2DMut::get_mut`: `self.slice.get_mut(origin..origin + self.len)`;
the returned mutable region covers the same elements as `get`. -/
def Slice2DMut.get_mut (s : Slice2DMut α) (index : Nat) : Option (List α) :=
  let origin := index * s.stride
  getRange? s.slice origin (origin + s.len)

/-- `Index<usize> for Slice2DMut`; `none` models the panic. -/
def Slice2DMut.index (s : Slice2DMut α) (index : Nat) : Option (List α) :=
  let origin := index * s.stride
  getRange? s.slice origin (origin + s.len)

/-- `IndexMut<usize> for Slice2DMut`; `none` models the panic. The mutable
region returned is the same row region as `index`. -/
def Slice2DMut.index_mut (s : Slice2DMut α) (index : Nat) : Option (List α) :=
  let origin := index * s.stride
  getRange? s.slice origin (origin + s.len)

/-- `Slice2DMut::downgrade`: forget write access, keep the fields. -/
def Slice2DMut.downgrade (s : Slice2DMut α) : Slice2D α :=
  { stride := s.stride, len := s.len, slice := s.slice }

/-- Writing `v` through the mutable row reference `get_mut(i)[k]` (for
`k < len`, the write lands at buffer position `i * stride + k`): the state
of the underlying buffer after `self.get_mut(i).unwrap()[k] = v`. -/
def Slice2DMut.writeAt (s : Slice2DMut α) (i k : Nat) (v : α) : Slice2DMut α :=
  { s with slice := s.slice.set (i * s.stride + k) v }

/-- `<T as Slice2DExt>::slice2d(len, stride)`. -/
def slice2d (l : List α) (len stride : Nat) : Slice2D α :=
  { len := len, stride := stride, slice := l }

/-- `<T as Slice2DExt>::slice2d_mut(len, stride)`. -/
def slice2d_mut (l : List α) (len stride : Nat) : Slice2DMut α :=
  { len := len, stride := stride, slice := l }

/-- `<T as Slice2DExt>::get_slice2d(x, y)`:
`if self.len() != x * y { return None; } Some(Slice2D { len: y, stride: y, slice: self })`. -/
def get_slice2d (l : List α) (x y : Nat) : Option (Slice2D α) :=
  if l.length ≠ x * y then none
  else some { len := y, stride := y, slice := l }

/-- `<T as Slice2DExt>::get_slice2d_mut(x, y)`. -/
def get_slice2d_mut (l : List α) (x y : Nat) : Option (Slice2DMut α) :=
  if l.length ≠ x * y then none
  else some { len := y, stride := y, slice := l }

/-- `<Slice2D as Iterator>::next`:
`let result = self.slice.get(0..self.len);
 self.slice = self.slice.get(self.stride..).unwrap_or(&[]);
 result` — returns the yielded item and the mutated view. -/
def Slice2D.next (s : Slice2D α) : Option (List α) × Slice2D α :=
  (getRange? s.slice 0 s.len,
   { s with slice := (getFrom? s.slice s.stride).getD [] })

/-- The view after `n` calls to `next`. -/
def Slice2D.advance (s : Slice2D α) : Nat → Slice2D α
  | 0 => s
  | n + 1 => (Slice2D.next (s.advance n)).2

/-- The item returned by the `(n+1)`-th call to `next` (0-indexed). -/
def Slice2D.iterOut (s : Slice2D α) (n : Nat) : Option (List α) :=
  (Slice2D.next (s.advance n)).1

/-! ### Helper lemmas -/

theorem getFrom?_getD_eq_drop (l : List α) (a : Nat) :
    (getFrom? l a).getD [] = l.drop a := by
  unfold getFrom?
  split
  · rfl
  · exact (List.drop_eq_nil_iff.mpr (by omega)).symm

theorem getRange?_origin (l : List α) (o n : Nat) :
    getRange? l o (o + n) = if o + n ≤ l.length then some ((l.drop o).take n) else none := by
  simp [getRange?, Nat.le_add_right]

theorem getRange?_zero (l : List α) (n : Nat) :
    getRange? l 0 n = if n ≤ l.length then some (l.take n) else none := by
  simp [getRange?]

theorem Slice2D.get_eq_if (s : Slice2D α) (i : Nat) :
    s.get i = if i * s.stride + s.len ≤ s.slice.length
      then some ((s.slice.drop (i * s.stride)).take s.len) else none := by
  simp [Slice2D.get, getRange?_origin]

theorem Slice2DMut.mut_get_eq_if (s : Slice2DMut α) (i : Nat) :
    s.get i = if i * s.stride + s.len ≤ s.slice.length
      then some ((s.slice.drop (i * s.stride)).take s.len) else none := by
  simp [Slice2DMut.get, getRange?_origin]

theorem Slice2D.advance_stride (s : Slice2D α) (n : Nat) :
    (s.advance n).stride = s.stride := by
  induction n with
  | zero => rfl
  | succ n ih => simp [Slice2D.advance, Slice2D.next, ih]

theorem Slice2D.advance_len (s : Slice2D α) (n : Nat) :
    (s.advance n).len = s.len := by
  induction n with
  | zero => rfl
  | succ n ih => simp [Slice2D.advance, Slice2D.next, ih]

theorem Slice2D.advance_slice (s : Slice2D α) (n : Nat) :
    (s.advance n).slice = s.slice.drop (n * s.stride) := by
  induction n with
  | zero => simp [Slice2D.advance]
  | succ n ih =>
    show ((s.advance n).next).2.slice = _
    simp only [Slice2D.next, getFrom?_getD_eq_drop, ih, Slice2D.advance_stride,
      List.drop_drop, Nat.succ_mul]

theorem Slice2D.iterOut_eq (s : Slice2D α) (n : Nat) :
    s.iterOut n = if s.len ≤ (s.slice.drop (n * s.stride)).length
      then some ((s.slice.drop (n * s.stride)).take s.len) else none := by
  simp [Slice2D.iterOut, Slice2D.next, getRange?_zero, Slice2D.advance_slice,
    Slice2D.advance_len]

theorem Slice2D.get_isSome_iff (s : Slice2D α) (i : Nat) :
    (∃ r, s.get i = some r) ↔ i * s.stride + s.len ≤ s.slice.length := by
  rw [Slice2D.get_eq_if]
  split <;> simp [*]

theorem Slice2D.get_none (s : Slice2D α) (i : Nat)
    (h : s.slice.length < i * s.stride + s.len) : s.get i = none := by
  rw [Slice2D.get_eq_if, if_neg (by omega)]

theorem Slice2D.get_elem (s : Slice2D α) (i : Nat) (r : List α)
    (h : s.get i = some r) (k : Nat) (hk : k < s.len) :
    r[k]? = s.slice[i * s.stride + k]? := by
  rw [Slice2D.get_eq_if] at h
  split at h
  · injection h with h
    subst h
    rw [List.getElem?_take_of_lt hk, List.getElem?_drop]
  · exact absurd h (by simp)

theorem Slice2DMut.mut_get_isSome_iff (s : Slice2DMut α) (i : Nat) :
    (∃ r, s.get i = some r) ↔ i * s.stride + s.len ≤ s.slice.length := by
  rw [Slice2DMut.mut_get_eq_if]
  split <;> simp [*]

theorem Slice2DMut.mut_get_none (s : Slice2DMut α) (i : Nat)
    (h : s.slice.length < i * s.stride + s.len) : s.get i = none := by
  rw [Slice2DMut.mut_get_eq_if, if_neg (by omega)]

theorem Slice2DMut.mut_get_elem (s : Slice2DMut α) (i : Nat) (r : List α)
    (h : s.get i = some r) (k : Nat) (hk : k < s.len) :
    r[k]? = s.slice[i * s.stride + k]? := by
  rw [Slice2DMut.mut_get_eq_if] at h
  split at h
  · injection h with h
    subst h
    rw [List.getElem?_take_of_lt hk, List.getElem?_drop]
  · exact absurd h (by simp)

/-! ### Claims -/

/-- C1: for both `Slice2D` and `Slice2DMut` with row length `len` and stride
`stride` over buffer `slice`, the checked lookup `get i` returns `some` row
exactly when `i * stride + len ≤ slice.length`; the returned row satisfies
`row[k] = slice[i * stride + k]` for every `k < len`; and for every `i` beyond
the bound it returns `none` (an absent value, not an abort). -/
theorem claim1_checked_get (s : Slice2D α) (t : Slice2DMut α) (i : Nat) :
    ((∃ r, s.get i = some r) ↔ i * s.stride + s.len ≤ s.slice.length) ∧
    (∀ r, s.get i = some r → ∀ k, k < s.len → r[k]? = s.slice[i * s.stride + k]?) ∧
    (s.slice.length < i * s.stride + s.len → s.get i = none) ∧
    ((∃ r, t.get i = some r) ↔ i * t.stride + t.len ≤ t.slice.length) ∧
    (∀ r, t.get i = some r → ∀ k, k < t.len → r[k]? = t.slice[i * t.stride + k]?) ∧
    (t.slice.length < i * t.stride + t.len → t.get i = none) :=
  ⟨s.get_isSome_iff i, fun r h k hk => s.get_elem i r h k hk, fun h => s.get_none i h,
   t.mut_get_isSome_iff i, fun r h k hk => t.mut_get_elem i r h k hk,
   fun h => t.mut_get_none i h⟩

/-- C1 witness: concrete instance of the checked-lookup contract. -/
theorem claim1_witness :
    ([40, 50] : List Nat)[1]? = ([10, 20, 30, 40, 50, 60] : List Nat)[1 * 3 + 1]? ∧
    (slice2d_mut [10, 20, 30, 40, 50, 60] 2 3).get 2 = none :=
  ⟨(claim1_checked_get (slice2d [10, 20, 30, 40, 50, 60] 2 3)
      (slice2d_mut [10, 20, 30, 40, 50, 60] 2 3) 1).2.1 [40, 50] (by decide) 1 (by decide),
   (claim1_checked_get (slice2d [10, 20, 30, 40, 50, 60] 2 3)
      (slice2d_mut [10, 20, 30, 40, 50, 60] 2 3) 2).2.2.2.2.2 (by decide)⟩

/-- C2: the validated constructors `get_slice2d x y` / `get_slice2d_mut x y`
return `some` exactly when `buffer.length = x * y`; on success the view is the
one produced by the explicit constructor `slice2d y y` (row length `y`, stride
`y`, over the whole buffer); on a length mismatch both return `none`. -/
theorem claim2_validated_construction (l : List α) (x y : Nat) :
    get_slice2d l x y = (if l.length = x * y then some (slice2d l y y) else none) ∧
    get_slice2d_mut l x y = (if l.length = x * y then some (slice2d_mut l y y) else none) := by
  constructor <;> simp only [get_slice2d, get_slice2d_mut, slice2d, slice2d_mut, ite_not]

/-- C3 counterexample: with `width = 3`, `height = 0` and the empty buffer the
validated construction succeeds (`0 = 3 * 0`), yet `get 3` returns
`some []` rather than `none`, although `3 ≥ width`. -/
theorem claim3_counterexample :
    get_slice2d ([] : List Nat) 3 0 = some (slice2d [] 0 0) ∧
    (slice2d ([] : List Nat) 0 0).get 3 = some [] := by decide

/-- C3 (amended): if validated construction succeeds then every `i < width`
yields a row of length `height`; and provided `0 < height`, `get i` returns
`none` for every `i ≥ width`. -/
theorem claim3_amended (l : List α) (x y : Nat) (v : Slice2D α)
    (h : get_slice2d l x y = some v) :
    (∀ i, i < x → ∃ r, v.get i = some r ∧ r.length = y) ∧
    (0 < y → ∀ i, x ≤ i → v.get i = none) := by
  unfold get_slice2d at h
  split at h
  · exact absurd h (by simp)
  · rename_i hlen
    rw [not_ne_iff] at hlen
    injection h with h
    subst h
    constructor
    · intro i hi
      have h1 : (i + 1) * y ≤ x * y := Nat.mul_le_mul_right y (by omega)
      have h2 : (i + 1) * y = i * y + y := Nat.succ_mul i y
      refine ⟨(l.drop (i * y)).take y, ?_, ?_⟩
      · simp only [Slice2D.get_eq_if]
        rw [if_pos (by omega)]
      · simp only [List.length_take, List.length_drop]
        omega
    · intro hy i hi
      have h1 : x * y ≤ i * y := Nat.mul_le_mul_right y hi
      simp only [Slice2D.get_eq_if]
      rw [if_neg (by omega)]

/-- C3 witness: a concrete successful validated construction. -/
theorem claim3_witness :
    (∃ r, (slice2d [1, 2, 3, 4, 5, 6] 2 2).get 1 = some r ∧ r.length = 2) ∧
    (slice2d [1, 2, 3, 4, 5, 6] 2 2).get 5 = none := by
  have h := claim3_amended [1, 2, 3, 4, 5, 6] 3 2 (slice2d [1, 2, 3, 4, 5, 6] 2 2) (by decide)
  exact ⟨h.1 1 (by decide), h.2 (by decide) 5 (by decide)⟩

/-- C4: after `n` calls to `next` the cursor is `slice.drop (n * stride)`;
the `(n+1)`-th call yields the row `B[n*stride : n*stride + len]` (the first
`len` elements of the cursor) when at least `len` elements remain in the
cursor, and `none` otherwise; and exhaustion is sticky: once a call returns
`none`, every subsequent call returns `none`. -/
theorem claim4_iteration (s : Slice2D α) (n : Nat) :
    (s.advance n).slice = s.slice.drop (n * s.stride) ∧
    s.iterOut n = (if s.len ≤ (s.slice.drop (n * s.stride)).length
      then some ((s.slice.drop (n * s.stride)).take s.len) else none) ∧
    (s.iterOut n = none → ∀ m, n ≤ m → s.iterOut m = none) := by
  refine ⟨s.advance_slice n, s.iterOut_eq n, ?_⟩
  intro hn m hm
  rw [Slice2D.iterOut_eq] at hn ⊢
  simp only [List.length_drop] at hn ⊢
  split at hn
  · exact absurd hn (by simp)
  · rename_i h
    have h2 : n * s.stride ≤ m * s.stride := Nat.mul_le_mul_right s.stride hm
    rw [if_neg (by omega)]

/-- C4 witness: a concrete exhausted iterator stays exhausted. -/
theorem claim4_witness : (slice2d [1, 2, 3] 2 2).iterOut 5 = none :=
  (claim4_iteration (slice2d [1, 2, 3] 2 2) 1).2.2 (by decide) 5 (by decide)

/-- C5: trusted indexed access (`view[i]` on either view type, and indexed
mutable access on the mutable view) returns exactly the row region
`[i*stride, i*stride + len)` of the buffer when that region is in bounds, and
otherwise `none`, which models the panic (fatal bounds failure); in particular
it never yields elements outside the declared row region. -/
theorem claim5_trusted_index (s : Slice2D α) (t : Slice2DMut α) (i : Nat) :
    s.index i = (if i * s.stride + s.len ≤ s.slice.length
      then some ((s.slice.drop (i * s.stride)).take s.len) else none) ∧
    t.index i = (if i * t.stride + t.len ≤ t.slice.length
      then some ((t.slice.drop (i * t.stride)).take t.len) else none) ∧
    t.index_mut i = (if i * t.stride + t.len ≤ t.slice.length
      then some ((t.slice.drop (i * t.stride)).take t.len) else none) := by
  refine ⟨?_, ?_, ?_⟩ <;>
    simp [Slice2D.index, Slice2DMut.index, Slice2DMut.index_mut, getRange?_origin]

/-- C6: after writing `v` through `get_mut(i)[k]` (row `i` in range, `k < len`),
reading back `get(i)[k]` — or the trusted `view[i][k]` — through the same view
returns `v`, and every buffer position other than `i*stride + k` is unchanged. -/
theorem claim6_write_then_read (s : Slice2DMut α) (i k : Nat) (v : α)
    (h : i * s.stride + s.len ≤ s.slice.length) (hk : k < s.len) :
    (∃ r, (s.writeAt i k v).get i = some r ∧ r[k]? = some v) ∧
    (∃ r, (s.writeAt i k v).index i = some r ∧ r[k]? = some v) ∧
    (∀ j, j ≠ i * s.stride + k → (s.writeAt i k v).slice[j]? = s.slice[j]?) := by
  have hlen : (s.writeAt i k v).slice.length = s.slice.length := by
    simp [Slice2DMut.writeAt]
  have hset : (s.writeAt i k v).slice[i * s.stride + k]? = some v := by
    simp only [Slice2DMut.writeAt]
    exact List.getElem?_set_eq_of_lt v (by omega)
  have hrow : ∃ r, (s.writeAt i k v).get i = some r ∧ r[k]? = some v := by
    refine ⟨((s.writeAt i k v).slice.drop (i * s.stride)).take s.len, ?_, ?_⟩
    · rw [Slice2DMut.mut_get_eq_if]
      simp only [Slice2DMut.writeAt]
      rw [if_pos (by simpa using h)]
    · rw [List.getElem?_take_of_lt hk, List.getElem?_drop]
      exact hset
  refine ⟨hrow, ?_, ?_⟩
  · obtain ⟨r, hr, hv⟩ := hrow
    exact ⟨r, hr, hv⟩
  · intro j hj
    simp only [Slice2DMut.writeAt]
    exact List.getElem?_set_ne (Ne.symm hj)

/-- C6 witness: a concrete write-then-read round trip. -/
theorem claim6_witness :
    (∃ r, ((slice2d_mut [1, 2, 3, 4] 2 2).writeAt 1 0 9).get 1 = some r ∧ r[0]? = some 9) ∧
    ((slice2d_mut [1, 2, 3, 4] 2 2).writeAt 1 0 9).slice[0]? =
      ([1, 2, 3, 4] : List Nat)[0]? := by
  have h := claim6_write_then_read (slice2d_mut [1, 2, 3, 4] 2 2) 1 0 9
    (by decide) (by decide)
  exact ⟨h.1, h.2.2 0 (by decide)⟩

/-- C7 counterexample: `next` advances the view's own stored buffer, so
indexed lookup through the view changes after iteration. For the view with
row length 1 and stride 1 over `[1, 2]`, `get 1` returns `some [2]` before
iteration but `none` after one call to `next`. -/
theorem claim7_counterexample :
    ((slice2d ([1, 2] : List Nat) 1 1).advance 1).get 1 ≠
      (slice2d ([1, 2] : List Nat) 1 1).get 1 := by decide

/-- C7 (amended): iteration is destructive — `next` advances the stored
`slice` field itself by `stride` per call — so after `n` calls (with
`n * stride` still within the buffer) `get i` on the view returns what
`get (n + i)` returned before iteration began, not the original `get i`. -/
theorem claim7_amended (s : Slice2D α) (n i : Nat)
    (h : n * s.stride ≤ s.slice.length) :
    (s.advance n).get i = s.get (n + i) := by
  rw [Slice2D.get_eq_if, Slice2D.get_eq_if, Slice2D.advance_stride, Slice2D.advance_len,
    Slice2D.advance_slice]
  have h1 : (n + i) * s.stride = n * s.stride + i * s.stride := Nat.add_mul n i s.stride
  simp only [List.length_drop, List.drop_drop]
  rw [h1]
  split
  · rw [if_pos (by omega)]
  · rw [if_neg (by omega)]

/-- C7 witness: a concrete shifted lookup after two iteration steps. -/
theorem claim7_witness :
    ((slice2d ([1, 2, 3, 4] : List Nat) 1 1).advance 2).get 1 =
      (slice2d ([1, 2, 3, 4] : List Nat) 1 1).get 3 :=
  claim7_amended (slice2d [1, 2, 3, 4] 1 1) 2 1 (by decide)

/-- C8 counterexample: with stride 0 and row length 1 over `[1]`, iteration
never terminates: no number of calls to `next` ever returns `none`. -/
theorem claim8_counterexample :
    ¬ ∃ n, (slice2d ([1] : List Nat) 1 0).iterOut n = none := by
  rintro ⟨n, hn⟩
  rw [Slice2D.iterOut_eq] at hn
  simp [slice2d] at hn

/-- C8 (amended): for every view with positive stride and positive row length,
iteration is finite: after `buffer.length` calls, `next` returns `none`. -/
theorem claim8_amended (s : Slice2D α) (hs : 0 < s.stride) (hl : 0 < s.len) :
    ∃ n, s.iterOut n = none := by
  refine ⟨s.slice.length, ?_⟩
  rw [Slice2D.iterOut_eq]
  have h1 : s.slice.length ≤ s.slice.length * s.stride :=
    Nat.le_mul_of_pos_right s.slice.length hs
  rw [if_neg (by simp only [List.length_drop]; omega)]

/-- C8 witness: a concrete finite iteration. -/
theorem claim8_witness : ∃ n, (slice2d [1, 2, 3] 2 1).iterOut n = none :=
  claim8_amended (slice2d [1, 2, 3] 2 1) (by decide) (by decide)

/-- `Slice2D::get` under `w`-bit wrapping (release-mode overflow) arithmetic:
`origin = (i * stride) % 2^w` and the upper bound `(origin + len) % 2^w`. -/
def Slice2D.getW (s : Slice2D α) (w i : Nat) : Option (List α) :=
  let origin := (i * s.stride) % 2 ^ w
  getRange? s.slice origin ((origin + s.len) % 2 ^ w)

/-- C9 counterexample: under 4-bit wrapping arithmetic, the view with row
length 1 and stride 8 over `[5]` answers `get 2` with `some [5]` — the origin
`2 * 8 = 16` wraps to `0` — although the true (overflow-free) region
`B[16 : 17]` is empty and the overflow-free lookup returns `none`: the
arithmetic does silently wrap into an in-bounds-looking but incorrect region. -/
theorem claim9_counterexample :
    (slice2d ([5] : List Nat) 1 8).getW 4 2 = some [5] ∧
    (([5] : List Nat).drop (2 * 8)).take 1 ≠ [5] ∧
    (slice2d ([5] : List Nat) 1 8).get 2 = none := by decide

/-- C9 (amended): whenever `i * stride + len < 2^w` (no overflow), the
`w`-bit wrapped lookup agrees with the exact one, and trusted indexing
agrees with `get`; with an overflow the wrapped lookup can return an
incorrect region (see the counterexample). -/
theorem claim9_amended (s : Slice2D α) (w i : Nat)
    (h : i * s.stride + s.len < 2 ^ w) :
    s.getW w i = s.get i ∧ s.index i = s.get i := by
  refine ⟨?_, rfl⟩
  show getRange? s.slice ((i * s.stride) % 2 ^ w) (((i * s.stride) % 2 ^ w + s.len) % 2 ^ w)
      = getRange? s.slice (i * s.stride) (i * s.stride + s.len)
  have h1 : (i * s.stride) % 2 ^ w = i * s.stride := Nat.mod_eq_of_lt (by omega)
  rw [h1, Nat.mod_eq_of_lt h]

/-- C9 witness: concrete agreement of wrapped and exact lookup. -/
theorem claim9_witness :
    (slice2d ([1, 2] : List Nat) 1 1).getW 8 1 = (slice2d ([1, 2] : List Nat) 1 1).get 1 :=
  (claim9_amended (slice2d [1, 2] 1 1) 8 1 (by decide)).1

/-- C10: for a view with stride 0 and row length `len` satisfying
`0 < len ≤ buffer.length`, `get i` returns the same first row
`buffer.take len` for every index `i`; the iterator never advances
(`advance n` is the original view) and never terminates: every call to
`next` yields that same first row. -/
theorem claim10_zero_stride (s : Slice2D α) (h0 : s.stride = 0)
    (hl : 0 < s.len) (hle : s.len ≤ s.slice.length) :
    (∀ i, s.get i = some (s.slice.take s.len)) ∧
    (∀ n, s.advance n = s ∧ s.iterOut n = some (s.slice.take s.len)) := by
  constructor
  · intro i
    rw [Slice2D.get_eq_if, h0, Nat.mul_zero, List.drop_zero, if_pos (by omega)]
  · intro n
    constructor
    · refine Slice2D.ext (s.advance_stride n) (s.advance_len n) ?_
      rw [Slice2D.advance_slice, h0, Nat.mul_zero, List.drop_zero]
    · rw [Slice2D.iterOut_eq, h0, Nat.mul_zero, List.drop_zero, if_pos hle]

/-- C10 witness: concrete degenerate view with stride 0. -/
theorem claim10_witness :
    (slice2d ([1, 2, 3] : List Nat) 2 0).get 7 = some [1, 2] ∧
    (slice2d ([1, 2, 3] : List Nat) 2 0).iterOut 4 = some [1, 2] := by
  have h := claim10_zero_stride (slice2d [1, 2, 3] 2 0) rfl (by decide) (by decide)
  exact ⟨h.1 7, (h.2 4).2⟩
